import Mathlib

/-!
Verification of the natural-language specification of `building-pyflink-apps`
(files `src/s15_branching.py` and `src/s14_kafka_consumer.py`) against a
shallow embedding of the scripts.

The scripts register operator graphs with an external stream-processing
engine; the engine itself is not part of the repository.  Following the
specification, the engine's operator semantics (`fromCollection`, `map`,
`filter`, `flatMap`, `union`, connect/process, side outputs, `execute`) are
modelled from the spec as a single-threaded, in-memory pipeline core, while
every user handler and predicate appearing in the scripts is translated
directly from the Python source.
-/

namespace PyflinkApps

/-- Modelled from the spec: the engine's `from_collection` (§4.1), missing
from the repository.  A `Stream` is an ordered finite sequence; the source
preserves the input order exactly and an empty collection is a valid empty
stream. -/
def fromCollection (items : List α) : List α := items

/-- Modelled from the spec: the engine's `map` operator (§4.2), missing from
the repository.  Applies `f` to each element in order. -/
def mapStream (f : α → β) : List α → List β
  | [] => []
  | x :: xs => f x :: mapStream f xs

/-- Modelled from the spec: the engine's `filter` operator (§4.2), missing
from the repository.  Keeps the elements satisfying `p`, in their
original relative order. -/
def filterStream (p : α → Bool) : List α → List α
  | [] => []
  | x :: xs => if p x then x :: filterStream p xs else filterStream p xs

/-- Modelled from the spec: the engine's `flatMap` operator (§4.2), missing
from the repository.  For each input element in order, its produced
sub-sequence is fully exhausted and appended before the next input element
is consumed. -/
def flatMapStream (f : α → List β) : List α → List β
  | [] => []
  | x :: xs => f x ++ flatMapStream f xs

/-- Modelled from the spec: the engine's `union` operator (§4.2), missing
from the repository.  The spec leaves the cross-stream interleaving
unspecified and requires only that all elements of both inputs appear with
within-stream order preserved; the model fixes the concrete interleaving
that materializes the first input before the second. -/
def unionStream (a b : List α) : List α := a ++ b

/-- Modelled from the spec: the connect/process node (§4.3), missing from
the repository.  Fires `onA` once per element of the A-side stream and
`onB` once per element of the B-side stream, processing the A-side stream
to completion, in order, before the B-side stream. -/
def processConnected (onA : α → γ) (onB : β → γ) (a : List α) (b : List β) : List γ :=
  unionStream (mapStream onA a) (mapStream onB b)

theorem mapStream_eq_map (f : α → β) (l : List α) : mapStream f l = l.map f := by
  induction l with
  | nil => rfl
  | cons x xs ih => simp [mapStream, ih]

theorem length_mapStream (f : α → β) (l : List α) :
    (mapStream f l).length = l.length := by
  rw [mapStream_eq_map]; exact List.length_map l f

theorem filterStream_sublist (p : α → Bool) (l : List α) :
    (filterStream p l).Sublist l := by
  induction l with
  | nil => exact List.Sublist.refl _
  | cons x xs ih =>
    by_cases h : p x
    · simpa [filterStream, h] using ih.cons₂ x
    · simpa [filterStream, h] using ih.cons x

theorem mem_filterStream {p : α → Bool} {l : List α} {x : α} :
    x ∈ filterStream p l ↔ x ∈ l ∧ p x = true := by
  induction l with
  | nil => simp [filterStream]
  | cons y ys ih =>
    by_cases h : p y
    · simp only [filterStream, if_pos h, List.mem_cons, ih]
      constructor
      · rintro (rfl | ⟨hm, hp⟩)
        · exact ⟨Or.inl rfl, h⟩
        · exact ⟨Or.inr hm, hp⟩
      · rintro ⟨rfl | hm, hp⟩
        · exact Or.inl rfl
        · exact Or.inr ⟨hm, hp⟩
    · simp only [filterStream, if_neg h, List.mem_cons, ih]
      constructor
      · rintro ⟨hm, hp⟩
        exact ⟨Or.inr hm, hp⟩
      · rintro ⟨rfl | hm, hp⟩
        · exact absurd hp h
        · exact ⟨hm, hp⟩

/-- Runtime values flowing through the modelled pipeline: the scripts use
Python ints, strings and pairs (`Row`/tuples are modelled as pairs). -/
inductive Val where
  | vInt (n : Int)
  | vStr (s : String)
  | vPair (a b : Val)
deriving DecidableEq, Repr

/-- Declared element types, as carried by a Tag (`Types.STRING()` in the
source becomes `tStr`). -/
inductive ValType where
  | tInt
  | tStr
  | tPair (a b : ValType)
deriving DecidableEq, Repr

/-- The runtime type of a value, compared against a Tag's declared type. -/
def Val.typeOf : Val → ValType
  | .vInt _ => .tInt
  | .vStr _ => .tStr
  | .vPair a b => .tPair a.typeOf b.typeOf

/-- A side-output tag: a name plus a declared element type, as in
`OutputTag("side-output", Types.STRING())` in the source. -/
structure OutputTag where
  name : String
  declaredType : ValType
deriving DecidableEq, Repr

/-- Modelled from the spec: the engine's operator graph (§3), missing from
the repository.  A node is a vertex with one or two input streams; the
inductive structure makes the graph acyclic by construction.  A `process`
handler returns, per input element, a list of emissions: `none`-tagged ones
go to the main output, `some tag` ones to that tag's side channel. -/
inductive StreamExpr where
  | source (items : List Val)
  | map (f : Val → Val) (s : StreamExpr)
  | filter (p : Val → Bool) (s : StreamExpr)
  | flatMap (f : Val → List Val) (s : StreamExpr)
  | union (a b : StreamExpr)
  | coProcess (onA onB : Val → Val) (a b : StreamExpr)
  | process (h : Val → List (Option OutputTag × Val)) (s : StreamExpr)

/-- The emissions of a process node over an input stream, in input order:
each element's emission list is fully appended before the next element is
consumed. -/
def emissions (h : Val → List (Option OutputTag × Val)) : List Val → List (Option OutputTag × Val)
  | [] => []
  | x :: xs => h x ++ emissions h xs

/-- The main-output channel of a process node: the untagged emissions, in
emission order. -/
def mainOutput (h : Val → List (Option OutputTag × Val)) (input : List Val) : List Val :=
  (emissions h input).filterMap fun e => if e.1 = none then some e.2 else none

/-- The side channel of one tag: the emissions routed to exactly that tag,
in emission order. -/
def sideChannel (h : Val → List (Option OutputTag × Val)) (input : List Val)
    (tag : OutputTag) : List Val :=
  (emissions h input).filterMap fun e => if e.1 = some tag then some e.2 else none

/-- Modelled from the spec: the engine's topological pull (§4.5), missing
from the repository.  Materializes a node's main output stream, all inputs
first. -/
def evalStream : StreamExpr → List Val
  | .source items => fromCollection items
  | .map f s => mapStream f (evalStream s)
  | .filter p s => filterStream p (evalStream s)
  | .flatMap f s => flatMapStream f (evalStream s)
  | .union a b => unionStream (evalStream a) (evalStream b)
  | .coProcess onA onB a b => processConnected onA onB (evalStream a) (evalStream b)
  | .process h s => mainOutput h (evalStream s)

/-- A process node as built at graph-construction time: its declared tags
and its handler.  Tags are established at construction and immutable. -/
structure ProcessNode where
  declaredTags : List OutputTag
  handler : Val → List (Option OutputTag × Val)

/-- The error kinds of side-output retrieval (spec §7). -/
inductive SideError where
  | unknownTag
  | typeMismatch
deriving DecidableEq, Repr

/-- Modelled from the spec: `getSideOutput` (§4.4), missing from the
repository.  Retrieves the materialized sequence for a tag after
execution; an undeclared tag is `unknownTag`, a retrieved value whose
runtime type disagrees with the tag's declared type is `typeMismatch`. -/
def getSideOutput (node : ProcessNode) (input : List Val) (tag : OutputTag) :
    Except SideError (List Val) :=
  if tag ∈ node.declaredTags then
    let vals := sideChannel node.handler input tag
    if vals.all (fun v => v.typeOf == tag.declaredType) then .ok vals
    else .error .typeMismatch
  else .error .unknownTag

/-- A declared output of a graph: a main stream, or a process node's side
channel for one tag. -/
inductive OutputRef where
  | main (s : StreamExpr)
  | side (h : Val → List (Option OutputTag × Val)) (s : StreamExpr) (tag : OutputTag)

/-- A graph: its declared outputs (main and side-tagged), fixed at
construction time. -/
structure Graph where
  outputs : List OutputRef

/-- Materializing one declared output. -/
def materialize : OutputRef → List Val
  | .main s => evalStream s
  | .side h s tag => sideChannel h (evalStream s) tag

/-- Modelled from the spec: `execute` (§4.5), missing from the repository.
A single topological pull materializing every declared output; it reads
the graph and nothing else, carrying no mutable state. -/
def execute (g : Graph) : List (List Val) := g.outputs.map materialize

/-- Running `execute` twice in sequence over the same graph, returning both
execution results. -/
def executeTwice (g : Graph) : List (List Val) × List (List Val) :=
  let r₁ := execute g
  let r₂ := execute g
  (r₁, r₂)

/-! ### The Kafka consumer script (`src/s14_kafka_consumer.py`)

The external `KafkaConsumer` iterator is modelled as a finite sequence of
events: ordinary messages, or a transport error raised while consuming.
The script's observable behaviour is the sequence of `print` calls, one
`LogEntry` per call. -/

/-- One event produced while iterating the external consumer: a delivered
message (key and value), or a transport error raised by the client. -/
inductive KafkaEvent where
  | msg (key value : String)
  | transportError (err : String)
deriving DecidableEq, Repr

/-- Whether an event is an ordinary delivered message. -/
def KafkaEvent.isMsg : KafkaEvent → Bool
  | .msg _ _ => true
  | .transportError _ => false

/-- One `print` call of the consumer script, by form: the startup banner,
the three per-message prints (`type(message)`, the key, the value), and the
two prints of the `except` block (the fixed failure notice and the
exception text). -/
inductive LogEntry where
  | started
  | typeLine
  | keyLine (k : String)
  | valueLine (v : String)
  | failNotice
  | errDetail (e : String)
deriving DecidableEq, Repr

/-- Whether a log entry is the script's failure notice
`"Failed to read kafka message."`. -/
def LogEntry.isFailNotice : LogEntry → Bool
  | .failNotice => true
  | _ => false

/-- The `for message in consumer:` loop inside the `try` block of
`s14_kafka_consumer.py`: each delivered message is printed (type, key,
value); the first transport error jumps to the `except Exception` handler,
which prints the failure notice and the exception and ends the script —
no retry, nothing after the error is consumed. -/
def consumeLoop : List KafkaEvent → List LogEntry
  | [] => []
  | .msg k v :: rest => .typeLine :: .keyLine k :: .valueLine v :: consumeLoop rest
  | .transportError e :: _ => [.failNotice, .errDetail e]

/-- The message values a downstream consumer of the log actually receives,
in order. -/
def deliveredValues (log : List LogEntry) : List String :=
  log.filterMap fun e =>
    match e with
    | .valueLine v => some v
    | _ => none

/-- The outcome of running the whole script: an uncaught exception raised
at module level, or the printed log. -/
inductive ScriptOutcome where
  | uncaughtIndexError
  | finished (log : List LogEntry)
deriving DecidableEq, Repr

/-- The whole `s14_kafka_consumer.py` script: the module-level line
`topic=sys.argv[1]` runs before the `try` block is ever entered, so when
`argv` has no index 1 the `IndexError` propagates uncaught; otherwise the
banner is printed and the consumer loop runs under the catch-all
handler. -/
def runConsumerScript (argv : List String) (events : List KafkaEvent) : ScriptOutcome :=
  match argv.get? 1 with
  | none => .uncaughtIndexError
  | some _topic => .finished (.started :: consumeLoop events)

/-! ### Handlers and predicates translated from `src/s15_branching.py` -/

/-- `MyCoProcessFunction.process_element1`: `return Row(value * 2)` (the
one-field `Row` wrapper is elided). -/
def process_element1 (value : Int) : Int := value * 2

/-- `MyCoProcessFunction.process_element2`: `return Row(value * 3)`. -/
def process_element2 (value : Int) : Int := value * 3

/-- `MyCoMapFunction.map1`: `return value[0] + 1, value[1]`. -/
def map1 (value : Int × String) : Int × String := (value.1 + 1, value.2)

/-- `MyCoMapFunction.map2`: `return value[0], value[1] + "flink"`. -/
def map2 (value : Int × String) : Int × String := (value.1, value.2 ++ "flink")

/-- Python's `value.split(" ")` over the character list: splits at every
single space character (consecutive separators yield empty fields). -/
def splitSpaceChars : List Char → List Char → List String
  | [], acc => [String.mk acc.reverse]
  | c :: cs, acc =>
    if c = ' ' then String.mk acc.reverse :: splitSpaceChars cs []
    else splitSpaceChars cs (c :: acc)

/-- Python's `value.split(" ")`. -/
def pySplitSpace (value : String) : List String := splitSpaceChars value.toList []

/-- `MyCoFlatMapFunction.flat_map1`: `for sp in value.split(" "): yield sp, len(sp)`. -/
def flat_map1 (value : String) : List (String × Nat) :=
  (pySplitSpace value).map fun sp => (sp, sp.length)

/-- `MyCoFlatMapFunction.flat_map2`: `for sp in value.split(" "): yield sp.upper(), len(sp)`. -/
def flat_map2 (value : String) : List (String × Nat) :=
  (pySplitSpace value).map fun sp => (sp.toUpper, sp.length)

/-- The first splitting predicate: `lambda e: e > 0 and e % 2 == 0`. -/
def pred1 (e : Int) : Bool := decide (e > 0) && decide (e % 2 = 0)

/-- The second splitting predicate: `lambda e: e % 2 != 0`. -/
def pred2 (e : Int) : Bool := decide (e % 2 ≠ 0)

/-- The splitting example's source collection, `range(10)`. -/
def splitSource : List Int := (List.range 10).map fun n => (n : Int)

/-- `filter1 = ds.filter(lambda e: e > 0 and e % 2 == 0)`. -/
def filter1 : List Int := filterStream pred1 (fromCollection splitSource)

/-- `filter2 = ds.filter(lambda e: e % 2 != 0)`. -/
def filter2 : List Int := filterStream pred2 (fromCollection splitSource)

/-- `map = filter1.map(lambda e: e * 2)` (named `mapDouble` since `map` is
taken). -/
def mapDouble : List Int := mapStream (fun e => e * 2) filter1

/-- `map.union(filter2)`: the final union output of the splitting example. -/
def unionOut : List Int := unionStream mapDouble filter2

/-- Python's `str(value)` for the values the side-output example uses. -/
def Val.pyStr : Val → String
  | .vInt n => toString n
  | .vStr s => s
  | .vPair a b => "(" ++ a.pyStr ++ ", " ++ b.pyStr ++ ")"

/-- `output_tag = OutputTag("side-output", Types.STRING())`. -/
def sideTag : OutputTag := ⟨"side-output", .tStr⟩

/-- `MyProcessFunction.process_element`: yields the value to the regular
output and `"sideoutput-" + str(value)` to the side output. -/
def myProcessHandler (v : Val) : List (Option OutputTag × Val) :=
  [(none, v), (some sideTag, .vStr ("sideoutput-" ++ v.pyStr))]

/-- The side-output example's process node: `sideTag` declared, handler
`myProcessHandler`. -/
def myProcessNode : ProcessNode := ⟨[sideTag], myProcessHandler⟩

/-! ### Interleavings

The spec leaves `union`'s cross-stream order unspecified; `Interleave as bs l`
says `l` is some merge of `as` and `bs` preserving each side's own order. -/

/-- `l` interleaves `as` and `bs`: every element of both appears, each
side's relative order preserved, cross-stream order arbitrary. -/
inductive Interleave : List α → List α → List α → Prop where
  | nil : Interleave [] [] []
  | consLeft (x : α) {as bs l : List α} :
      Interleave as bs l → Interleave (x :: as) bs (x :: l)
  | consRight (y : α) {as bs l : List α} :
      Interleave as bs l → Interleave as (y :: bs) (y :: l)

theorem Interleave.sublist_left {as bs l : List α} (h : Interleave as bs l) :
    as.Sublist l := by
  induction h with
  | nil => exact List.Sublist.refl _
  | consLeft x _ ih => exact ih.cons₂ x
  | consRight y _ ih => exact ih.cons y

/-! ### Supporting lemmas -/

theorem flatMapStream_join (f : α → List β) (xs : List α) :
    flatMapStream f xs = (mapStream f xs).flatten := by
  induction xs with
  | nil => rfl
  | cons x xs ih => simp [flatMapStream, mapStream, ih]

theorem filterStream_idem (p : α → Bool) (S : List α) :
    filterStream p (filterStream p S) = filterStream p S := by
  induction S with
  | nil => rfl
  | cons x xs ih =>
    by_cases h : p x
    · simp [filterStream, h, ih]
    · simp [filterStream, h, ih]

theorem consumeLoop_append_error (msgs rest : List KafkaEvent) (e : String)
    (h : ∀ ev ∈ msgs, ev.isMsg = true) :
    consumeLoop (msgs ++ .transportError e :: rest) =
      consumeLoop msgs ++ [.failNotice, .errDetail e] := by
  induction msgs with
  | nil => rfl
  | cons ev evs ih =>
    cases ev with
    | msg k v =>
      have h' : ∀ ev ∈ evs, ev.isMsg = true := fun ev hm => h ev (List.mem_cons_of_mem _ hm)
      simp [consumeLoop, ih h']
    | transportError e' =>
      have := h (.transportError e') (List.mem_cons_self _ _)
      simp [KafkaEvent.isMsg] at this

theorem countP_consumeLoop_msgs (msgs : List KafkaEvent)
    (h : ∀ ev ∈ msgs, ev.isMsg = true) :
    (consumeLoop msgs).countP LogEntry.isFailNotice = 0 := by
  induction msgs with
  | nil => rfl
  | cons ev evs ih =>
    cases ev with
    | msg k v =>
      have h' : ∀ ev ∈ evs, ev.isMsg = true := fun ev hm => h ev (List.mem_cons_of_mem _ hm)
      simp [consumeLoop, List.countP_cons, LogEntry.isFailNotice, ih h']
    | transportError e' =>
      have := h (.transportError e') (List.mem_cons_self _ _)
      simp [KafkaEvent.isMsg] at this

/-! ### The claims -/

/-- C1: executing the same Graph twice with `execute` yields identical
ExecutionResult sequences for every declared output (main and
side-tagged): `execute` reads only the graph, carries no hidden mutable
state between runs, so re-execution is idempotent and deterministic. -/
theorem execute_deterministic (g : Graph) :
    (executeTwice g).1 = (executeTwice g).2 ∧
    executeTwice g = (execute g, execute g) :=
  ⟨rfl, rfl⟩

/-- C2: the output of `union(fromCollection(A), fromCollection(B))` is a
permutation of the multiset of all elements of A and B in which the
relative order of A's elements is preserved and, separately, the relative
order of B's elements is preserved. -/
theorem union_multiset_and_order (α : Type) (A B : List α) :
    (unionStream (fromCollection A) (fromCollection B)).Perm (A ++ B) ∧
    A.Sublist (unionStream (fromCollection A) (fromCollection B)) ∧
    B.Sublist (unionStream (fromCollection A) (fromCollection B)) :=
  ⟨List.Perm.refl _, List.sublist_append_left A B, List.sublist_append_right A B⟩

/-- C3: `flatMap`'s output is the concatenation, in input order, of each
input element's produced sub-sequence, so output length is the sum of the
per-element sub-sequence lengths; the split-on-space token-length handler
`flat_map1` applied to the A-side input
`["hello apache flink", "streaming compute"]` produces
`[("hello",5),("apache",6),("flink",5),("streaming",9),("compute",7)]`. -/
theorem flatMap_concatenation :
    (∀ (α β : Type) (f : α → List β) (xs : List α),
        flatMapStream f xs = (mapStream f xs).flatten ∧
        (flatMapStream f xs).length = ((mapStream f xs).map List.length).sum) ∧
    flatMapStream flat_map1 ["hello apache flink", "streaming compute"] =
      [("hello", 5), ("apache", 6), ("flink", 5), ("streaming", 9), ("compute", 7)] := by
  refine ⟨fun α β f xs => ⟨flatMapStream_join f xs, ?_⟩, by decide⟩
  induction xs with
  | nil => rfl
  | cons x xs ih => simp [flatMapStream, mapStream, ih]

/-- C4: `process` over connected streams fires `onA` exactly once per
element of the A-side stream and `onB` exactly once per element of the
B-side stream, and the chosen deterministic order processes the A-side
stream to completion, in its own order, before any B-side element; the
source's `MyCoMapFunction` example evaluates accordingly. -/
theorem coProcess_fires_once_each_side (α β γ : Type) (onA : α → γ) (onB : β → γ)
    (a : List α) (b : List β) :
    processConnected onA onB a b = mapStream onA a ++ mapStream onB b ∧
    (processConnected onA onB a b).take a.length = mapStream onA a ∧
    (processConnected onA onB a b).drop a.length = mapStream onB b ∧
    (processConnected onA onB a b).length = a.length + b.length ∧
    processConnected map1 map2 [(1, "data streaming")] [(2, "py")] =
      [(2, "data streaming"), (2, "pyflink")] := by
  refine ⟨rfl, ?_, ?_, ?_, by decide⟩
  · show (mapStream onA a ++ mapStream onB b).take a.length = mapStream onA a
    rw [← length_mapStream onA a]
    exact List.take_left _ _
  · show (mapStream onA a ++ mapStream onB b).drop a.length = mapStream onB b
    rw [← length_mapStream onA a]
    exact List.drop_left _ _
  · show (mapStream onA a ++ mapStream onB b).length = a.length + b.length
    rw [List.length_append, length_mapStream, length_mapStream]

/-- C5: `getSideOutput` fails with `unknownTag` if and only if the tag was
never declared on the node; for a declared tag whose handler emitted zero
elements it returns the empty sequence (not an error); and it fails with
`typeMismatch` when some retrieved value's runtime type disagrees with the
tag's declared type. -/
theorem getSideOutput_spec (node : ProcessNode) (input : List Val) (tag : OutputTag) :
    (getSideOutput node input tag = .error .unknownTag ↔ tag ∉ node.declaredTags) ∧
    (tag ∈ node.declaredTags ∧ sideChannel node.handler input tag = [] →
        getSideOutput node input tag = .ok []) ∧
    (tag ∈ node.declaredTags ∧
        (∃ v ∈ sideChannel node.handler input tag, v.typeOf ≠ tag.declaredType) →
        getSideOutput node input tag = .error .typeMismatch) := by
  unfold getSideOutput
  by_cases hd : tag ∈ node.declaredTags
  · simp only [if_pos hd]
    refine ⟨?_, ?_, ?_⟩
    · constructor
      · intro h
        by_cases ha : (sideChannel node.handler input tag).all
            (fun v => v.typeOf == tag.declaredType)
        · rw [if_pos ha] at h
          exact absurd h (by simp)
        · rw [if_neg ha] at h
          exact absurd h (by simp)
      · intro h
        exact absurd hd h
    · rintro ⟨-, hc⟩
      rw [hc]
      simp
    · rintro ⟨-, v, hv, hne⟩
      have ha : (sideChannel node.handler input tag).all
          (fun v => v.typeOf == tag.declaredType) = false := by
        rw [List.all_eq_false]
        exact ⟨v, hv, by simpa using hne⟩
      rw [if_neg (by simp [ha])]
  · simp only [if_neg hd]
    refine ⟨by simp [hd], ?_, ?_⟩
    · rintro ⟨h, -⟩
      exact absurd h hd
    · rintro ⟨h, -⟩
      exact absurd h hd

/-- C6: the Connect/Process pipeline with A-side collection `[1,2]` under
`process_element1` (`x*2`) and B-side collection `[3,4]` under
`process_element2` (`x*3`) yields main-output elements `[2,4]` in that
order, and `[2,4]` appears, in order, in every interleaving of the two
sides' outputs — independent of when the B-side elements are processed. -/
theorem coProcess_example_main_order :
    processConnected process_element1 process_element2 [1, 2] [3, 4] = [2, 4, 9, 12] ∧
    mapStream process_element1 [1, 2] = [2, 4] ∧
    (∀ out : List Int,
        Interleave (mapStream process_element1 [1, 2])
          (mapStream process_element2 [3, 4]) out →
        ([2, 4] : List Int).Sublist out) :=
  ⟨by decide, by decide, fun _ h => h.sublist_left⟩

/-- C7: `filter` is idempotent — filtering twice with the same predicate
equals filtering once — and `filter` preserves the relative order of the
surviving elements (its output is a sublist of its input). -/
theorem filter_idempotent_preserves_order (α : Type) (p : α → Bool) (S : List α) :
    filterStream p (filterStream p S) = filterStream p S ∧
    (filterStream p S).Sublist S :=
  ⟨filterStream_idem p S, filterStream_sublist p S⟩

/-- C8: when the external message-queue client hits a transport error while
consuming, the script surfaces exactly one reported failure event (the
logged failure notice), performs no automatic retry (nothing after the
error is consumed), and the values delivered downstream are exactly those
of the cleanly finished prefix — a prematurely terminated sequence is
treated identically to a source that legitimately finished. -/
theorem kafka_error_single_failure (msgs rest : List KafkaEvent) (e : String)
    (h : ∀ ev ∈ msgs, ev.isMsg = true) :
    consumeLoop (msgs ++ .transportError e :: rest) =
      consumeLoop msgs ++ [.failNotice, .errDetail e] ∧
    (consumeLoop (msgs ++ .transportError e :: rest)).countP LogEntry.isFailNotice = 1 ∧
    deliveredValues (consumeLoop (msgs ++ .transportError e :: rest)) =
      deliveredValues (consumeLoop msgs) := by
  have he := consumeLoop_append_error msgs rest e h
  refine ⟨he, ?_, ?_⟩
  · rw [he, List.countP_append, countP_consumeLoop_msgs msgs h]
    rfl
  · rw [he]
    unfold deliveredValues
    rw [List.filterMap_append]
    simp

/-- C8 witness: a concrete run with one message before the transport error
and one undelivered event after it. -/
theorem kafka_error_single_failure_witness :
    consumeLoop [.msg "k1" "v1", .transportError "broken pipe", .msg "k2" "v2"] =
      consumeLoop [.msg "k1" "v1"] ++ [.failNotice, .errDetail "broken pipe"] ∧
    (consumeLoop [.msg "k1" "v1", .transportError "broken pipe",
        .msg "k2" "v2"]).countP LogEntry.isFailNotice = 1 ∧
    deliveredValues (consumeLoop [.msg "k1" "v1", .transportError "broken pipe",
        .msg "k2" "v2"]) = deliveredValues (consumeLoop [.msg "k1" "v1"]) :=
  kafka_error_single_failure [.msg "k1" "v1"] [.msg "k2" "v2"] "broken pipe" (by decide)

/-- C9: invoking the consumer script with no topic argument makes the
module-level read of `sys.argv[1]` raise an uncaught `IndexError`: the
catch-all handler is installed only around the later consumer loop, so the
advertised failure path (the printed failure notice) is never reached. -/
theorem argv_missing_topic_uncaught (argv : List String) (events : List KafkaEvent)
    (h : argv.length ≤ 1) :
    runConsumerScript argv events = .uncaughtIndexError ∧
    ∀ log : List LogEntry, runConsumerScript argv events ≠ .finished log := by
  have hg : argv.get? 1 = none := List.get?_eq_none.mpr h
  constructor
  · unfold runConsumerScript
    rw [hg]
  · intro log hc
    unfold runConsumerScript at hc
    rw [hg] at hc
    exact ScriptOutcome.noConfusion hc

/-- C9 witness: running the script with `argv` holding only the program
name ends in the uncaught `IndexError`. -/
theorem argv_missing_topic_uncaught_witness :
    runConsumerScript ["s14_kafka_consumer.py"] [] = .uncaughtIndexError :=
  (argv_missing_topic_uncaught ["s14_kafka_consumer.py"] [] (by decide)).1

/-- C10: in the stream-splitting example over `range(10)`, the two filter
predicates do not form a partition: element 0 satisfies neither predicate,
so 0 appears in neither filter's output nor in the final union output,
while every other source element appears in exactly one branch. -/
theorem split_predicates_not_partition :
    pred1 0 = false ∧ pred2 0 = false ∧
    (0 : Int) ∉ filter1 ∧ (0 : Int) ∉ filter2 ∧ (0 : Int) ∉ unionOut ∧
    (∀ e ∈ splitSource, e ≠ 0 →
      (e ∈ filter1 ∧ e ∉ filter2) ∨ (e ∉ filter1 ∧ e ∈ filter2)) := by
  decide

end PyflinkApps
